import Mathlib

/-!
Verification of `src/Gaffer/Process.cpp` (the computation-process tracker of
the Gaffer dependency-graph engine): a shallow embedding of the data model and
operations of that file, followed by theorems settling the specification
claims about it.

Modelling conventions:
- C++ pointers to `Plug`, `Node` and `Monitor` objects are identified by
  `Nat` ids playing the role of addresses; pointer comparison becomes id
  comparison.
- The per-thread mutable state (`ThreadState::m_process` and the
  thread-specific global `g_errorSource`) is bundled into an explicit
  `ThreadState` record threaded through the operations, together with the
  cancellation flag consulted by `IECore::Canceller::check`.
- Throwing is modelled by `Except`/explicit exception values (`Exn`), and the
  observable side effects (monitor callbacks, node error-signal invocations)
  are returned as explicit event lists.
-/

/-- Direction of a connection point, mirroring `Plug::Direction` as used by
`Process::emitError` (`plug->direction() == Plug::Out`). -/
inductive Direction : Type where
  | In : Direction
  | Out : Direction
deriving DecidableEq, Repr

/-- A connection point (`Gaffer::Plug`) as seen by `Process.cpp`: an identity
(the address), a direction, an optional owning node (`plug->node()` may be
null) and an optional input connection (`plug->getInput()` may be null).
Plugs upstream of a given plug form the chain of `input` links. -/
inductive Plug : Type where
  | mk : Nat → Direction → Option Nat → Option Plug → Plug

/-- Identity of a plug, standing for its address. -/
def Plug.id : Plug → Nat
  | .mk i _ _ _ => i

/-- Direction accessor, `plug->direction()`. -/
def Plug.direction : Plug → Direction
  | .mk _ d _ _ => d

/-- Owning node accessor, `plug->node()` (none models a null pointer). -/
def Plug.node : Plug → Option Nat
  | .mk _ _ n _ => n

/-- Input connection accessor, `plug->getInput()` (none models null). -/
def Plug.getInput : Plug → Option Plug
  | .mk _ _ _ i => i

/-- Active exception as examined by `Process::handleException`: the
`IECore::Cancelled` cancellation signal, a typed `std::exception` carrying a
message (`e.what()`), or an untyped exception (`catch( ... )`). -/
inductive Exn : Type where
  | cancelled : Exn
  | typed : String → Exn
  | untyped : Exn
deriving DecidableEq, Repr

/-- A tracked unit of computation (`Gaffer::Process`): the interned type
string `m_type`, the plug being computed `m_plug`, the downstream plug
`m_downstream` used to start error reporting, and the parent back-reference
`m_parent` (the process current on the thread just before construction). -/
inductive Process : Type where
  | mk : String → Plug → Plug → Option Process → Process

/-- Accessor for `m_type`. -/
def Process.type : Process → String
  | .mk t _ _ _ => t

/-- Accessor for `m_plug` (the target point). -/
def Process.plug : Process → Plug
  | .mk _ p _ _ => p

/-- Accessor for `m_downstream`. -/
def Process.downstream : Process → Plug
  | .mk _ _ d _ => d

/-- Accessor for `m_parent`, as exposed by `Process::parent()`. -/
def Process.parent : Process → Option Process
  | .mk _ _ _ p => p

/-- Decidable equality for plugs, recursing through the input chain. -/
def Plug.decEq : (a b : Plug) → Decidable (a = b)
  | .mk i1 d1 n1 none, .mk i2 d2 n2 none =>
    if h : i1 = i2 ∧ d1 = d2 ∧ n1 = n2 then
      isTrue (by rw [h.1, h.2.1, h.2.2])
    else
      isFalse (fun he => by injection he with h1 h2 h3 h4; exact h ⟨h1, h2, h3⟩)
  | .mk _ _ _ none, .mk _ _ _ (some _) =>
    isFalse (fun he => by injection he with h1 h2 h3 h4; exact Option.noConfusion h4)
  | .mk _ _ _ (some _), .mk _ _ _ none =>
    isFalse (fun he => by injection he with h1 h2 h3 h4; exact Option.noConfusion h4)
  | .mk i1 d1 n1 (some p1), .mk i2 d2 n2 (some p2) =>
    if h : i1 = i2 ∧ d1 = d2 ∧ n1 = n2 then
      match Plug.decEq p1 p2 with
      | isTrue hp => isTrue (by rw [h.1, h.2.1, h.2.2, hp])
      | isFalse hp =>
        isFalse (fun he => by injection he with h1 h2 h3 h4; exact hp (Option.some.inj h4))
    else
      isFalse (fun he => by injection he with h1 h2 h3 h4; exact h ⟨h1, h2, h3⟩)

instance : DecidableEq Plug := Plug.decEq

/-- Decidable equality for processes, recursing through the parent chain. -/
def Process.decEq : (a b : Process) → Decidable (a = b)
  | .mk t1 p1 d1 none, .mk t2 p2 d2 none =>
    if h : t1 = t2 ∧ p1 = p2 ∧ d1 = d2 then
      isTrue (by rw [h.1, h.2.1, h.2.2])
    else
      isFalse (fun he => by injection he with h1 h2 h3 h4; exact h ⟨h1, h2, h3⟩)
  | .mk _ _ _ none, .mk _ _ _ (some _) =>
    isFalse (fun he => by injection he with h1 h2 h3 h4; exact Option.noConfusion h4)
  | .mk _ _ _ (some _), .mk _ _ _ none =>
    isFalse (fun he => by injection he with h1 h2 h3 h4; exact Option.noConfusion h4)
  | .mk t1 p1 d1 (some q1), .mk t2 p2 d2 (some q2) =>
    if h : t1 = t2 ∧ p1 = p2 ∧ d1 = d2 then
      match Process.decEq q1 q2 with
      | isTrue hq => isTrue (by rw [h.1, h.2.1, h.2.2, hq])
      | isFalse hq =>
        isFalse (fun he => by injection he with h1 h2 h3 h4; exact hq (Option.some.inj h4))
    else
      isFalse (fun he => by injection he with h1 h2 h3 h4; exact h ⟨h1, h2, h3⟩)

instance : DecidableEq Process := Process.decEq

/-- Per-thread state visible to `Process.cpp`: the current-process slot
`ThreadState::m_process`, the thread-local error source `g_errorSource.local()`
(a plug address, none for null), and whether cancellation has been requested
on the thread's canceller (what `IECore::Canceller::check` consults). -/
structure ThreadState : Type where
  process : Option Process
  errorSource : Option Nat
  cancelRequested : Bool
deriving DecidableEq

/-- Monitor lifecycle callback invocations: `monitor->processStarted( p )` and
`monitor->processFinished( p )`, tagged with the monitor's identity. -/
inductive MonitorEvent : Type where
  | processStarted : Nat → Process → MonitorEvent
  | processFinished : Nat → Process → MonitorEvent
deriving DecidableEq

/-- An invocation `node->errorSignal()( plug, source, error )` recorded as
(node id, plug id, error-source plug id, message). -/
structure ErrorEvent : Type where
  node : Nat
  plug : Nat
  source : Option Nat
  message : String
deriving DecidableEq

/-- Insertion into `boost::container::flat_set<Monitor *>`: the set is kept
sorted in ascending key (pointer) order and inserting an existing key is a
no-op. The list is the set in iteration order (`begin()` to `end()`). -/
def flatSetInsert (m : Nat) : List Nat → List Nat
  | [] => [m]
  | x :: xs =>
    if m < x then m :: x :: xs
    else if m = x then x :: xs
    else x :: flatSetInsert m xs

/-- Erasure from `boost::container::flat_set<Monitor *>`: removes the key if
present (a flat set holds each key at most once). -/
def flatSetErase (m : Nat) : List Nat → List Nat
  | [] => []
  | x :: xs => if m = x then xs else x :: flatSetErase m xs

/-- Translation of `Process::registerMonitor`: (after quiescing background
tasks via `BackgroundTask::cancelAllTasks()`, an external effect with no
bearing on the registry contents) `g_activeMonitors.insert( monitor )`. -/
def Process.registerMonitor (monitor : Nat) (g_activeMonitors : List Nat) : List Nat :=
  flatSetInsert monitor g_activeMonitors

/-- Translation of `Process::deregisterMonitor`: (after quiescing background
tasks) `g_activeMonitors.erase( monitor )`. -/
def Process.deregisterMonitor (monitor : Nat) (g_activeMonitors : List Nat) : List Nat :=
  flatSetErase monitor g_activeMonitors

/-- Translation of `Process::monitorRegistered`:
`g_activeMonitors.find( monitor ) != g_activeMonitors.end()`. -/
def Process.monitorRegistered (monitor : Nat) (g_activeMonitors : List Nat) : Bool :=
  g_activeMonitors.contains monitor

/-- Translation of the `Process` constructor. In source order: check the
thread's canceller (`IECore::Canceller::check`, throwing `IECore::Cancelled`
when cancellation has been requested), initialise `m_downstream` to
`downstream ? downstream : plug`, read `m_parent` from
`m_threadState->m_process`, publish this process as the thread's current one,
then call `processStarted` on every monitor in `g_activeMonitors` iteration
order. Returns the constructed process, updated thread state and emitted
monitor events, or the thrown exception. -/
def Process.construct (ts : ThreadState) (g_activeMonitors : List Nat)
    (type : String) (plug : Plug) (downstream : Option Plug) :
    Except Exn (Process × ThreadState × List MonitorEvent) :=
  if ts.cancelRequested then
    Except.error Exn.cancelled
  else
    let p : Process := Process.mk type plug (downstream.getD plug) ts.process
    let ts1 : ThreadState := { ts with process := some p }
    Except.ok (p, ts1, g_activeMonitors.map (fun m => MonitorEvent.processStarted m p))

/-- Thread state observed after a `Process` constructor ran (unchanged when
construction threw). -/
def stateAfterConstruct (ts : ThreadState) (g_activeMonitors : List Nat)
    (type : String) (plug : Plug) (downstream : Option Plug) : ThreadState :=
  match Process.construct ts g_activeMonitors type plug downstream with
  | Except.ok (_, ts1, _) => ts1
  | Except.error _ => ts

/-- Monitor notifications emitted by a `Process` constructor run (none when
construction threw). -/
def constructNotifications (ts : ThreadState) (g_activeMonitors : List Nat)
    (type : String) (plug : Plug) (downstream : Option Plug) : List MonitorEvent :=
  match Process.construct ts g_activeMonitors type plug downstream with
  | Except.ok (_, _, events) => events
  | Except.error _ => []

/-- Translation of `Process::current`: `ThreadState::current().m_process`. -/
def Process.current (ts : ThreadState) : Option Process :=
  ts.process

/-- Translation of the destructor body written in `Process.cpp`
(`Process::~Process`): call `processFinished` on every monitor in
`g_activeMonitors` iteration order, then, if `parent()` is null, set
`g_errorSource.local() = nullptr`. Note that this body does not touch
`m_threadState->m_process`. -/
def Process.destructorBody (p : Process) (g_activeMonitors : List Nat)
    (ts : ThreadState) : ThreadState × List MonitorEvent :=
  let events := g_activeMonitors.map (fun m => MonitorEvent.processFinished m p)
  let ts1 :=
    match p.parent with
    | none => { ts with errorSource := none }
    | some _ => ts
  (ts1, events)

/-- Translation of the error-reporting loop of `Process::emitError`, walking
from a plug upstream: report at every visited output plug owned by a node,
and advance to `plug->getInput()` only while the visited plug is not `m_plug`
(compared by address), stopping at a null input. `targetId` is the address of
`m_plug` and `es` the value of `g_errorSource.local()`. -/
def emitLoop (targetId : Nat) (es : Option Nat) (error : String) : Plug → List ErrorEvent
  | .mk i d n inp =>
    (if d = Direction.Out then
      match n with
      | some node => [ErrorEvent.mk node i es error]
      | none => []
    else []) ++
    (if i ≠ targetId then
      match inp with
      | some next => emitLoop targetId es error next
      | none => []
    else [])

/-- Translation of `Process::emitError`: start the walk at `m_downstream`. -/
def Process.emitError (p : Process) (es : Option Nat) (error : String) : List ErrorEvent :=
  emitLoop p.plug.id es error p.downstream

/-- Translation of `Process::handleException`, given the active exception and
the thread's current `g_errorSource.local()`. Returns the updated error
source, the error events emitted via `emitError`, and the exception rethrown
to the caller (the function always rethrows; it never returns normally). -/
def Process.handleException (p : Process) (es : Option Nat) (exn : Exn) :
    Option Nat × List ErrorEvent × Exn :=
  match exn with
  | Exn.cancelled => (es, [], Exn.cancelled)
  | Exn.typed msg =>
    let es1 := match es with
      | none => some p.plug.id
      | some x => some x
    (es1, p.emitError es1 msg, Exn.typed msg)
  | Exn.untyped =>
    let es1 := match es with
      | none => some p.plug.id
      | some x => some x
    (es1, p.emitError es1 "Unknown error", Exn.untyped)

/-- Modelled from the spec: the thread-state scope restoration that completes
a `Process` destruction. `Process.cpp` only contains the destructor body; the
restoration of the thread's current process is performed by the enclosing
thread-state scope machinery declared in headers not part of this file. The
spec states that on destruction the process "unlinks itself" from the
thread's current stack, i.e. the slot reverts to the parent. This definition
composes the source-translated destructor body with that restore. -/
def Process.destroyFull (p : Process) (g_activeMonitors : List Nat)
    (ts : ThreadState) : ThreadState × List MonitorEvent :=
  let (ts1, events) := p.destructorBody g_activeMonitors ts
  ({ ts1 with process := p.parent }, events)

/-- An operation performed on one thread: construct a process (with a type
string, target plug and optional downstream plug), or destroy the current
process. -/
inductive Op : Type where
  | push : String → Plug → Option Plug → Op
  | pop : Op

/-- Run a sequence of construct/destroy operations against a thread state.
Constructions that throw leave the state untouched; a destroy with no current
process does nothing. -/
def runOps (g_activeMonitors : List Nat) : List Op → ThreadState → ThreadState
  | [], ts => ts
  | Op.push t pl dn :: ops, ts =>
    match Process.construct ts g_activeMonitors t pl dn with
    | Except.ok (_, ts1, _) => runOps g_activeMonitors ops ts1
    | Except.error _ => runOps g_activeMonitors ops ts
  | Op.pop :: ops, ts =>
    match ts.process with
    | none => runOps g_activeMonitors ops ts
    | some p => runOps g_activeMonitors ops (p.destroyFull g_activeMonitors ts).1

/-- Spec-side bookkeeping for the claims about stack shape: the stack of
target-plug ids of constructed-but-not-destroyed processes, most recent
first, after running the operations starting from a given stack. -/
def pendingStack : List Op → List Nat → List Nat
  | [], s => s
  | Op.push _ pl _ :: ops, s => pendingStack ops (pl.id :: s)
  | Op.pop :: ops, s => pendingStack ops s.tail

/-- Target-plug ids along the parent chain of a process, starting at the
process itself and following `parent()` to the root. -/
def Process.chain : Process → List Nat
  | .mk _ pl _ none => [pl.id]
  | .mk _ pl _ (some q) => pl.id :: Process.chain q

/-- Target-plug ids along the parent chain of an optional current process. -/
def chainOf : Option Process → List Nat
  | none => []
  | some p => p.chain

/-- Spec-side description of the plugs visited by the `Process::emitError`
loop: the downstream plug, then input connections upstream, stopping after
the target plug (or at a null input). -/
def emitVisits (targetId : Nat) : Plug → List Plug
  | .mk i d n inp =>
    Plug.mk i d n inp ::
    (if i ≠ targetId then
      match inp with
      | some next => emitVisits targetId next
      | none => []
    else [])

/-- Spec-side description of the report emitted at one visited plug: an error
event when the plug is an output plug owned by a node, nothing otherwise. -/
def plugEvent (es : Option Nat) (error : String) (p : Plug) : Option ErrorEvent :=
  if p.direction = Direction.Out then
    p.node.map (fun n => ErrorEvent.mk n p.id es error)
  else
    none

/-- Spec-side description of the message `handleException` reports for a
non-cancellation exception: the exception's own message when typed, the
generic message otherwise. -/
def exnMessage : Exn → String
  | Exn.cancelled => ""
  | Exn.typed msg => msg
  | Exn.untyped => "Unknown error"

/-- Error source recorded for the thread after an exception unwinds through a
chain of nested processes, innermost first, each level calling
`handleException` with the still-active exception. -/
def unwindErrorSource (exn : Exn) (ps : List Process) (es : Option Nat) : Option Nat :=
  ps.foldl (fun acc p => (p.handleException acc exn).1) es

/-- Monitor identities receiving the callbacks of an event list, in call
order. -/
def notifiedOf (events : List MonitorEvent) : List Nat :=
  events.map (fun e =>
    match e with
    | MonitorEvent.processStarted m _ => m
    | MonitorEvent.processFinished m _ => m)

/-- Registry contents after a sequence of `registerMonitor` calls made in the
given order against an initially empty registry. -/
def buildMonitors (registrations : List Nat) : List Nat :=
  registrations.foldl (fun s m => Process.registerMonitor m s) []

/-! Helper lemmas. -/

theorem destructorBody_errorSource_root (p : Process) (mons : List Nat) (ts : ThreadState)
    (h : p.parent = none) : ((p.destructorBody mons ts).1).errorSource = none := by
  simp [Process.destructorBody, h]

theorem destructorBody_errorSource_child (p : Process) (mons : List Nat) (ts : ThreadState)
    (q : Process) (h : p.parent = some q) :
    ((p.destructorBody mons ts).1).errorSource = ts.errorSource := by
  simp [Process.destructorBody, h]

theorem destructorBody_process (p : Process) (mons : List Nat) (ts : ThreadState) :
    ((p.destructorBody mons ts).1).process = ts.process := by
  rcases h : p.parent with _ | q <;> simp [Process.destructorBody, h]

theorem destructorBody_cancel (p : Process) (mons : List Nat) (ts : ThreadState) :
    ((p.destructorBody mons ts).1).cancelRequested = ts.cancelRequested := by
  rcases h : p.parent with _ | q <;> simp [Process.destructorBody, h]

theorem destroyFull_process (p : Process) (mons : List Nat) (ts : ThreadState) :
    ((p.destroyFull mons ts).1).process = p.parent := by
  rcases h : p.parent with _ | q <;> simp [Process.destroyFull, Process.destructorBody, h]

theorem destroyFull_cancel (p : Process) (mons : List Nat) (ts : ThreadState) :
    ((p.destroyFull mons ts).1).cancelRequested = ts.cancelRequested := by
  rcases h : p.parent with _ | q <;> simp [Process.destroyFull, Process.destructorBody, h]

theorem construct_ok (ts : ThreadState) (mons : List Nat) (t : String) (pl : Plug)
    (dn : Option Plug) (h : ts.cancelRequested = false) :
    Process.construct ts mons t pl dn =
      Except.ok (Process.mk t pl (dn.getD pl) ts.process,
        { ts with process := some (Process.mk t pl (dn.getD pl) ts.process) },
        mons.map (fun m =>
          MonitorEvent.processStarted m (Process.mk t pl (dn.getD pl) ts.process))) := by
  simp [Process.construct, h]

theorem chain_cons (t : String) (pl d : Plug) (par : Option Process) :
    (Process.mk t pl d par).chain = pl.id :: chainOf par := by
  rcases par with _ | q <;> simp [Process.chain, chainOf]

theorem chain_tail (p : Process) : p.chain.tail = chainOf p.parent := by
  rcases p with ⟨t, pl, d, _ | q⟩ <;> simp [Process.chain, chainOf, Process.parent]

/-! Claim theorems. -/

/-- Claim C1: constructing a Process on a thread whose cancellation handle
reports that cancellation has been requested fails with the Cancelled signal
before any stack linkage and before any monitor notification — the thread
state (in particular its current-process slot) is unchanged, and no
processStarted notification is emitted. -/
theorem construct_cancelled_no_effects (ts : ThreadState) (mons : List Nat)
    (t : String) (pl : Plug) (dn : Option Plug) (h : ts.cancelRequested = true) :
    Process.construct ts mons t pl dn = Except.error Exn.cancelled
    ∧ stateAfterConstruct ts mons t pl dn = ts
    ∧ constructNotifications ts mons t pl dn = [] := by
  refine ⟨?_, ?_, ?_⟩ <;>
    simp [Process.construct, stateAfterConstruct, constructNotifications, h]

/-- Witness for C1 at a concrete cancelled thread state. -/
theorem construct_cancelled_no_effects_witness :
    Process.construct (ThreadState.mk none (some 9) true) [4, 8] "computeNode"
        (Plug.mk 1 Direction.Out (some 10) none) none = Except.error Exn.cancelled
    ∧ stateAfterConstruct (ThreadState.mk none (some 9) true) [4, 8] "computeNode"
        (Plug.mk 1 Direction.Out (some 10) none) none = ThreadState.mk none (some 9) true
    ∧ constructNotifications (ThreadState.mk none (some 9) true) [4, 8] "computeNode"
        (Plug.mk 1 Direction.Out (some 10) none) none = [] :=
  construct_cancelled_no_effects (ThreadState.mk none (some 9) true) [4, 8] "computeNode"
    (Plug.mk 1 Direction.Out (some 10) none) none rfl

/-- Claim C5: when the active exception is the cancellation signal,
handleException rethrows it unchanged, records no error source, and emits no
error report. -/
theorem handleException_cancelled_passthrough (p : Process) (es : Option Nat) :
    p.handleException es Exn.cancelled = (es, [], Exn.cancelled) := rfl

/-- Claim C6: for a non-cancellation active exception, handleException
invokes error reporting with the exception's message when typed and with
"Unknown error" when untyped, and rethrows the exception unchanged (it never
returns without an exception to rethrow). -/
theorem handleException_reports_and_rethrows (p : Process) (es : Option Nat) (exn : Exn)
    (h : exn ≠ Exn.cancelled) :
    (p.handleException es exn).2.2 = exn
    ∧ (∀ msg, exn = Exn.typed msg →
        (p.handleException es exn).2.1 = p.emitError (p.handleException es exn).1 msg)
    ∧ (exn = Exn.untyped →
        (p.handleException es exn).2.1 =
          p.emitError (p.handleException es exn).1 "Unknown error") := by
  rcases exn with _ | msg | _
  · exact absurd rfl h
  · exact ⟨rfl, fun m hm => by injection hm with hm; subst hm; rfl, fun hu => Exn.noConfusion hu⟩
  · exact ⟨rfl, fun m hm => Exn.noConfusion hm, fun _ => rfl⟩

/-- Witness for C6 at a typed exception and a concrete process. -/
theorem handleException_reports_and_rethrows_witness :
    ((Process.mk "computeNode" (Plug.mk 1 Direction.Out (some 10) none)
        (Plug.mk 1 Direction.Out (some 10) none) none).handleException none
        (Exn.typed "boom")).2.2 = Exn.typed "boom"
    ∧ ((Process.mk "computeNode" (Plug.mk 1 Direction.Out (some 10) none)
        (Plug.mk 1 Direction.Out (some 10) none) none).handleException none
        (Exn.typed "boom")).2.1 =
        (Process.mk "computeNode" (Plug.mk 1 Direction.Out (some 10) none)
          (Plug.mk 1 Direction.Out (some 10) none) none).emitError
          ((Process.mk "computeNode" (Plug.mk 1 Direction.Out (some 10) none)
            (Plug.mk 1 Direction.Out (some 10) none) none).handleException none
            (Exn.typed "boom")).1 "boom" :=
  ⟨(handleException_reports_and_rethrows _ none (Exn.typed "boom") (by decide)).1,
    (handleException_reports_and_rethrows
      (Process.mk "computeNode" (Plug.mk 1 Direction.Out (some 10) none)
        (Plug.mk 1 Direction.Out (some 10) none) none) none (Exn.typed "boom")
      (by decide)).2.1 "boom" rfl⟩

/-- Claim C8: destroying a Process with no parent (a thread-root computation)
clears the thread's recorded error source, while destroying a Process that
has a parent leaves the recorded error source unchanged. -/
theorem destructor_root_clears_error_source (p : Process) (mons : List Nat)
    (ts : ThreadState) :
    (p.parent = none → ((p.destructorBody mons ts).1).errorSource = none)
    ∧ (∀ q, p.parent = some q →
        ((p.destructorBody mons ts).1).errorSource = ts.errorSource) :=
  ⟨fun h => destructorBody_errorSource_root p mons ts h,
    fun q h => destructorBody_errorSource_child p mons ts q h⟩

/-- Witness for C8: a root process clears the recorded source, a child
process leaves it at its previous value. -/
theorem destructor_root_clears_error_source_witness :
    (((Process.mk "computeNode" (Plug.mk 1 Direction.Out (some 10) none)
        (Plug.mk 1 Direction.Out (some 10) none) none).destructorBody [4]
        (ThreadState.mk none (some 9) false)).1).errorSource = none
    ∧ (((Process.mk "hashNode" (Plug.mk 2 Direction.In none none)
        (Plug.mk 2 Direction.In none none)
        (some (Process.mk "computeNode" (Plug.mk 1 Direction.Out (some 10) none)
          (Plug.mk 1 Direction.Out (some 10) none) none))).destructorBody [4]
        (ThreadState.mk none (some 9) false)).1).errorSource = some 9 :=
  ⟨(destructor_root_clears_error_source _ [4] (ThreadState.mk none (some 9) false)).1 rfl,
    ((destructor_root_clears_error_source
      (Process.mk "hashNode" (Plug.mk 2 Direction.In none none)
        (Plug.mk 2 Direction.In none none)
        (some (Process.mk "computeNode" (Plug.mk 1 Direction.Out (some 10) none)
          (Plug.mk 1 Direction.Out (some 10) none) none))) [4]
      (ThreadState.mk none (some 9) false)).2
      (Process.mk "computeNode" (Plug.mk 1 Direction.Out (some 10) none)
        (Plug.mk 1 Direction.Out (some 10) none) none) rfl).trans rfl⟩

/-- Claim C10: the destructor body written in `Process.cpp` never touches the
thread's current-process slot: after it runs, the slot holds exactly the
value it held before (restoring the slot to the parent is external
thread-state scope work, not done here). -/
theorem destructor_preserves_current_slot (p : Process) (mons : List Nat)
    (ts : ThreadState) :
    ((p.destructorBody mons ts).1).process = ts.process :=
  destructorBody_process p mons ts

theorem handleException_keeps_source (p : Process) (x : Nat) (exn : Exn) :
    (p.handleException (some x) exn).1 = some x := by
  rcases exn with _ | msg | _ <;> rfl

theorem unwindErrorSource_keeps_source (exn : Exn) (ps : List Process) (x : Nat) :
    unwindErrorSource exn ps (some x) = some x := by
  induction ps with
  | nil => rfl
  | cons p ps ih =>
    show unwindErrorSource exn ps (p.handleException (some x) exn).1 = some x
    rw [handleException_keeps_source]
    exact ih

theorem handleException_records_target (p : Process) (exn : Exn)
    (h : exn ≠ Exn.cancelled) : (p.handleException none exn).1 = some p.plug.id := by
  rcases exn with _ | msg | _
  · exact absurd rfl h
  · rfl
  · rfl

/-- Claim C2: within one unwind, handleException records an error source only
when none is recorded yet — an already-recorded source is never overwritten —
so after the exception unwinds through a chain of nested processes (innermost
first) starting with no recorded source, the recorded source is the target
point of the innermost process that observed the error. -/
theorem errorSource_fixed_to_first_observer (exn : Exn) (p0 : Process)
    (ps : List Process) (x : Nat) (h : exn ≠ Exn.cancelled) :
    (p0.handleException (some x) exn).1 = some x
    ∧ (p0.handleException none exn).1 = some p0.plug.id
    ∧ unwindErrorSource exn (p0 :: ps) none = some p0.plug.id := by
  refine ⟨handleException_keeps_source p0 x exn, handleException_records_target p0 exn h, ?_⟩
  show unwindErrorSource exn ps (p0.handleException none exn).1 = some p0.plug.id
  rw [handleException_records_target p0 exn h]
  exact unwindErrorSource_keeps_source exn ps p0.plug.id

/-- Witness for C2: a three-deep unwind with a typed error observed first at
the innermost process (target plug id 3) fixes the source to plug 3. -/
theorem errorSource_fixed_to_first_observer_witness :
    ((Process.mk "computeNode" (Plug.mk 3 Direction.Out (some 30) none)
        (Plug.mk 3 Direction.Out (some 30) none) none).handleException (some 5)
        (Exn.typed "boom")).1 = some 5
    ∧ ((Process.mk "computeNode" (Plug.mk 3 Direction.Out (some 30) none)
        (Plug.mk 3 Direction.Out (some 30) none) none).handleException none
        (Exn.typed "boom")).1 = some 3
    ∧ unwindErrorSource (Exn.typed "boom")
        [Process.mk "computeNode" (Plug.mk 3 Direction.Out (some 30) none)
          (Plug.mk 3 Direction.Out (some 30) none) none,
         Process.mk "computeNode" (Plug.mk 2 Direction.Out (some 20) none)
          (Plug.mk 2 Direction.Out (some 20) none) none,
         Process.mk "computeNode" (Plug.mk 1 Direction.Out (some 10) none)
          (Plug.mk 1 Direction.Out (some 10) none) none] none = some 3 :=
  errorSource_fixed_to_first_observer (Exn.typed "boom")
    (Process.mk "computeNode" (Plug.mk 3 Direction.Out (some 30) none)
      (Plug.mk 3 Direction.Out (some 30) none) none)
    [Process.mk "computeNode" (Plug.mk 2 Direction.Out (some 20) none)
      (Plug.mk 2 Direction.Out (some 20) none) none,
     Process.mk "computeNode" (Plug.mk 1 Direction.Out (some 10) none)
      (Plug.mk 1 Direction.Out (some 10) none) none] 5 (by decide)

theorem emitLoop_eq_filterMap (tgt : Nat) (es : Option Nat) (msg : String) :
    (pl : Plug) → emitLoop tgt es msg pl = (emitVisits tgt pl).filterMap (plugEvent es msg)
  | .mk i d n none => by
    by_cases hi : i = tgt <;> cases d <;> rcases n with _ | nd <;>
      simp [emitLoop, emitVisits, plugEvent, Plug.direction, Plug.node, Plug.id, hi]
  | .mk i d n (some next) => by
    have ih := emitLoop_eq_filterMap tgt es msg next
    by_cases hi : i = tgt <;> cases d <;> rcases n with _ | nd <;>
      simp [emitLoop, emitVisits, plugEvent, Plug.direction, Plug.node, Plug.id, hi, ih]

theorem emitVisits_head (tgt : Nat) (pl : Plug) : (emitVisits tgt pl).head? = some pl := by
  rcases pl with ⟨i, d, n, inp⟩
  rw [emitVisits.eq_def]
  simp

theorem emitVisits_chain (tgt : Nat) :
    (pl : Plug) →
      List.Chain' (fun a b => a.getInput = some b ∧ a.id ≠ tgt) (emitVisits tgt pl)
  | .mk i d n none => by
    by_cases hi : i = tgt <;> simp [emitVisits, hi]
  | .mk i d n (some next) => by
    have ih := emitVisits_chain tgt next
    by_cases hi : i = tgt
    · simp [emitVisits, hi]
    · have hrw : emitVisits tgt (Plug.mk i d n (some next)) =
          Plug.mk i d n (some next) :: emitVisits tgt next := by
        simp [emitVisits, hi]
      rw [hrw, List.chain'_cons']
      refine ⟨fun b hb => ?_, ih⟩
      rw [emitVisits_head tgt next, Option.mem_def, Option.some_inj] at hb
      subst hb
      exact ⟨rfl, by simpa [Plug.id] using hi⟩

theorem emitVisits_target (tgt : Nat) (pl : Plug) (h : pl.id = tgt) :
    emitVisits tgt pl = [pl] := by
  rcases pl with ⟨i, d, n, inp⟩
  simp only [Plug.id] at h
  subst h
  rw [emitVisits.eq_def]
  simp

/-- Claim C4: the emitError walk starts at the process's downstream plug and
proceeds upstream via each visited plug's input connection; the events it
emits are exactly one node error-signal invocation, carrying the recorded
error source and the message, for every visited plug that is an output plug
owned by a node; the walk never advances past the target plug, and when the
downstream plug is the target plug exactly that single plug is visited. -/
theorem emitError_walk (p : Process) (es : Option Nat) (msg : String) :
    p.emitError es msg = (emitVisits p.plug.id p.downstream).filterMap (plugEvent es msg)
    ∧ (emitVisits p.plug.id p.downstream).head? = some p.downstream
    ∧ List.Chain' (fun a b => a.getInput = some b ∧ a.id ≠ p.plug.id)
        (emitVisits p.plug.id p.downstream)
    ∧ (p.downstream.id = p.plug.id → emitVisits p.plug.id p.downstream = [p.downstream]) :=
  ⟨emitLoop_eq_filterMap p.plug.id es msg p.downstream,
    emitVisits_head p.plug.id p.downstream,
    emitVisits_chain p.plug.id p.downstream,
    fun h => emitVisits_target p.plug.id p.downstream h⟩

/-- Witness for C4 at a process whose downstream plug is its target plug: the
walk visits exactly that plug, and the emitted report is the single event at
it. -/
theorem emitError_walk_witness :
    (Process.mk "computeNode" (Plug.mk 3 Direction.Out (some 30) none)
        (Plug.mk 3 Direction.Out (some 30) none) none).emitError (some 3) "boom" =
      (emitVisits 3 (Plug.mk 3 Direction.Out (some 30) none)).filterMap
        (plugEvent (some 3) "boom")
    ∧ emitVisits 3 (Plug.mk 3 Direction.Out (some 30) none) =
        [Plug.mk 3 Direction.Out (some 30) none] :=
  ⟨(emitError_walk (Process.mk "computeNode" (Plug.mk 3 Direction.Out (some 30) none)
      (Plug.mk 3 Direction.Out (some 30) none) none) (some 3) "boom").1,
    (emitError_walk (Process.mk "computeNode" (Plug.mk 3 Direction.Out (some 30) none)
      (Plug.mk 3 Direction.Out (some 30) none) none) (some 3) "boom").2.2.2 rfl⟩

theorem runOps_chain (mons : List Nat) (ops : List Op) :
    ∀ ts : ThreadState, ts.cancelRequested = false →
      chainOf (runOps mons ops ts).process = pendingStack ops (chainOf ts.process) := by
  induction ops with
  | nil => intro ts h; rfl
  | cons op ops ih =>
    intro ts h
    rcases op with ⟨t, pl, dn⟩ | _
    · have hc := construct_ok ts mons t pl dn h
      simp only [runOps, hc, pendingStack]
      rw [ih { ts with process := some (Process.mk t pl (dn.getD pl) ts.process) } h]
      simp [chainOf, chain_cons]
    · simp only [runOps, pendingStack]
      rcases hp : ts.process with _ | p
      · rw [ih ts h, hp]
        rfl
      · have h2 : ((p.destroyFull mons ts).1).cancelRequested = false :=
          (destroyFull_cancel p mons ts).trans h
        rw [ih _ h2, destroyFull_process, ← chain_tail]
        rfl

/-- Claim C3: for any sequence of nested constructions and destructions on one
thread, current() returns the thread slot, whose parent chain equals the
stack of constructed-but-not-destroyed target plugs in LIFO construction
order; in particular the current process is the most recently constructed,
not-yet-destroyed one (the head of that stack), or none when the thread is
idle. -/
theorem current_stack_lifo (mons : List Nat) (ops : List Op) (ts : ThreadState)
    (h : ts.cancelRequested = false) :
    Process.current (runOps mons ops ts) = (runOps mons ops ts).process
    ∧ chainOf (Process.current (runOps mons ops ts)) = pendingStack ops (chainOf ts.process)
    ∧ (chainOf (Process.current (runOps mons ops ts))).head? =
        (pendingStack ops (chainOf ts.process)).head? :=
  ⟨rfl, runOps_chain mons ops ts h, by rw [show Process.current (runOps mons ops ts) = (runOps mons ops ts).process from rfl, runOps_chain mons ops ts h]⟩

/-- Witness for C3: pushing plugs 1 and 2, destroying the top process, then
pushing plug 3 leaves the chain [3, 1] with plug 3 current. -/
theorem current_stack_lifo_witness :
    chainOf (Process.current (runOps []
      [Op.push "computeNode" (Plug.mk 1 Direction.Out (some 10) none) none,
       Op.push "hashNode" (Plug.mk 2 Direction.In none none) none,
       Op.pop,
       Op.push "computeNode" (Plug.mk 3 Direction.Out (some 30) none) none]
      (ThreadState.mk none none false))) = [3, 1] :=
  ((current_stack_lifo []
    [Op.push "computeNode" (Plug.mk 1 Direction.Out (some 10) none) none,
     Op.push "hashNode" (Plug.mk 2 Direction.In none none) none,
     Op.pop,
     Op.push "computeNode" (Plug.mk 3 Direction.Out (some 30) none) none]
    (ThreadState.mk none none false) rfl).2.1).trans (by decide)

theorem mem_flatSetInsert (a m : Nat) :
    ∀ s : List Nat, a ∈ flatSetInsert m s ↔ a = m ∨ a ∈ s
  | [] => by simp [flatSetInsert]
  | x :: xs => by
    by_cases h1 : m < x
    · simp [flatSetInsert, h1]
    · by_cases h2 : m = x
      · subst h2
        have hset : flatSetInsert m (m :: xs) = m :: xs := by
          simp [flatSetInsert, lt_irrefl]
        rw [hset, List.mem_cons]
        tauto
      · simp only [flatSetInsert, if_neg h1, if_neg h2, List.mem_cons,
          mem_flatSetInsert a m xs]
        tauto

theorem flatSetInsert_sorted (m : Nat) :
    ∀ s : List Nat, List.Sorted (· < ·) s → List.Sorted (· < ·) (flatSetInsert m s)
  | [], _ => by simp [flatSetInsert]
  | x :: xs, hs => by
    obtain ⟨hx, hxs⟩ := List.sorted_cons.mp hs
    by_cases h1 : m < x
    · simp only [flatSetInsert, if_pos h1]
      rw [List.sorted_cons]
      refine ⟨fun b hb => ?_, hs⟩
      rcases List.mem_cons.mp hb with hb | hb
      · exact hb ▸ h1
      · exact h1.trans (hx b hb)
    · by_cases h2 : m = x
      · simp only [flatSetInsert, if_neg h1, if_pos h2]
        exact hs
      · have h3 : x < m := by omega
        simp only [flatSetInsert, if_neg h1, if_neg h2]
        rw [List.sorted_cons]
        refine ⟨fun b hb => ?_, flatSetInsert_sorted m xs hxs⟩
        rcases (mem_flatSetInsert b m xs).mp hb with hb | hb
        · exact hb ▸ h3
        · exact hx b hb

theorem flatSetInsert_idem (m : Nat) :
    ∀ s : List Nat, flatSetInsert m (flatSetInsert m s) = flatSetInsert m s
  | [] => by simp [flatSetInsert]
  | x :: xs => by
    by_cases h1 : m < x
    · simp [flatSetInsert, h1, lt_irrefl]
    · by_cases h2 : m = x
      · subst h2
        simp [flatSetInsert, h1]
      · simp [flatSetInsert, h1, h2, flatSetInsert_idem m xs]

theorem not_mem_flatSetErase (m : Nat) :
    ∀ s : List Nat, List.Sorted (· < ·) s → m ∉ flatSetErase m s
  | [], _ => by simp [flatSetErase]
  | x :: xs, hs => by
    obtain ⟨hx, hxs⟩ := List.sorted_cons.mp hs
    by_cases h1 : m = x
    · subst h1
      simp only [flatSetErase, if_pos rfl]
      exact fun hm => absurd (hx m hm) (lt_irrefl m)
    · simp only [flatSetErase, if_neg h1, List.mem_cons]
      exact fun hm => hm.elim h1 (not_mem_flatSetErase m xs hxs)

theorem buildMonitors_loop_sorted :
    ∀ regs s : List Nat, List.Sorted (· < ·) s →
      List.Sorted (· < ·) (regs.foldl (fun acc m => Process.registerMonitor m acc) s)
  | [], _, hs => hs
  | r :: regs, s, hs =>
    buildMonitors_loop_sorted regs (Process.registerMonitor r s) (flatSetInsert_sorted r s hs)

theorem mem_buildMonitors_loop (a : Nat) :
    ∀ regs s : List Nat,
      a ∈ regs.foldl (fun acc m => Process.registerMonitor m acc) s ↔ a ∈ regs ∨ a ∈ s
  | [], s => by simp
  | r :: regs, s => by
    rw [List.foldl_cons, mem_buildMonitors_loop a regs (Process.registerMonitor r s)]
    simp only [Process.registerMonitor, mem_flatSetInsert, List.mem_cons]
    tauto

theorem buildMonitors_sorted (regs : List Nat) :
    List.Sorted (· < ·) (buildMonitors regs) :=
  buildMonitors_loop_sorted regs [] (List.sorted_nil)

theorem mem_buildMonitors (a : Nat) (regs : List Nat) :
    a ∈ buildMonitors regs ↔ a ∈ regs := by
  rw [buildMonitors, mem_buildMonitors_loop]
  simp

theorem notifiedOf_map_started (p : Process) :
    ∀ s : List Nat, notifiedOf (s.map (fun m => MonitorEvent.processStarted m p)) = s
  | [] => rfl
  | x :: xs => congrArg (List.cons x) (notifiedOf_map_started p xs)

theorem notifiedOf_map_finished (p : Process) :
    ∀ s : List Nat, notifiedOf (s.map (fun m => MonitorEvent.processFinished m p)) = s
  | [] => rfl
  | x :: xs => congrArg (List.cons x) (notifiedOf_map_finished p xs)

theorem notifiedOf_construct (ts : ThreadState) (s : List Nat) (t : String) (pl : Plug)
    (dn : Option Plug) (h : ts.cancelRequested = false) :
    notifiedOf (constructNotifications ts s t pl dn) = s := by
  simp only [constructNotifications, construct_ok ts s t pl dn h]
  exact notifiedOf_map_started _ s

theorem notifiedOf_destructor (p : Process) (s : List Nat) (ts : ThreadState) :
    notifiedOf ((p.destructorBody s ts).2) = s :=
  notifiedOf_map_finished p s

/-- Claim C7 is false as stated: the monitor registry is a flat set iterated
in ascending monitor (pointer) order, not in registration order. Registering
monitor 2 and then monitor 1 yields the registry [1, 2], and a process start
event notifies monitor 1 before monitor 2 — the reverse of the registration
order 2, 1. -/
theorem monitor_notification_not_registration_order :
    buildMonitors [2, 1] = [1, 2]
    ∧ notifiedOf (constructNotifications (ThreadState.mk none none false)
        (buildMonitors [2, 1]) "computeNode" (Plug.mk 1 Direction.Out (some 10) none) none)
        = [1, 2]
    ∧ [(1 : Nat), 2] ≠ [2, 1] := by
  refine ⟨by decide, by decide, by decide⟩

/-- Claim C7 (amended): for every process start and finish event, every
registered monitor is notified exactly once, and the notifications for a
single event occur in the registry's iteration order — ascending monitor
order, the same order for the start and the finish event — which need not be
the registration order. -/
theorem monitor_notifications_set_order (regs : List Nat) (ts : ThreadState)
    (t : String) (pl : Plug) (dn : Option Plug) (p : Process)
    (h : ts.cancelRequested = false) :
    List.Sorted (· < ·) (notifiedOf (constructNotifications ts (buildMonitors regs) t pl dn))
    ∧ (∀ m, m ∈ notifiedOf (constructNotifications ts (buildMonitors regs) t pl dn) ↔
        m ∈ regs)
    ∧ (notifiedOf (constructNotifications ts (buildMonitors regs) t pl dn)).Nodup
    ∧ notifiedOf (constructNotifications ts (buildMonitors regs) t pl dn)
        = notifiedOf ((p.destructorBody (buildMonitors regs) ts).2) := by
  rw [notifiedOf_construct ts (buildMonitors regs) t pl dn h,
    notifiedOf_destructor p (buildMonitors regs) ts]
  exact ⟨buildMonitors_sorted regs, fun m => mem_buildMonitors m regs,
    (buildMonitors_sorted regs).nodup, rfl⟩

/-- Witness for the amended C7 with monitors registered in the order 2, 1:
the start notifications are sorted ascending and coincide with the finish
notifications. -/
theorem monitor_notifications_set_order_witness :
    List.Sorted (· < ·) (notifiedOf (constructNotifications (ThreadState.mk none none false)
      (buildMonitors [2, 1]) "computeNode" (Plug.mk 1 Direction.Out (some 10) none) none))
    ∧ notifiedOf (constructNotifications (ThreadState.mk none none false)
        (buildMonitors [2, 1]) "computeNode" (Plug.mk 1 Direction.Out (some 10) none) none)
      = notifiedOf (((Process.mk "computeNode" (Plug.mk 1 Direction.Out (some 10) none)
          (Plug.mk 1 Direction.Out (some 10) none) none).destructorBody
          (buildMonitors [2, 1]) (ThreadState.mk none none false)).2) :=
  ⟨(monitor_notifications_set_order [2, 1] (ThreadState.mk none none false) "computeNode"
      (Plug.mk 1 Direction.Out (some 10) none) none
      (Process.mk "computeNode" (Plug.mk 1 Direction.Out (some 10) none)
        (Plug.mk 1 Direction.Out (some 10) none) none) rfl).1,
    (monitor_notifications_set_order [2, 1] (ThreadState.mk none none false) "computeNode"
      (Plug.mk 1 Direction.Out (some 10) none) none
      (Process.mk "computeNode" (Plug.mk 1 Direction.Out (some 10) none)
        (Plug.mk 1 Direction.Out (some 10) none) none) rfl).2.2.2⟩

/-- Claim C9 is false as stated: registering monitor 7 twice and then
deregistering it once removes it — the registry is a set, a duplicate
registration is a no-op, and one deregistration erases the single entry, so
monitorRegistered afterwards returns false, not true. -/
theorem register_twice_deregister_once_not_registered :
    Process.monitorRegistered 7
      (Process.deregisterMonitor 7
        (Process.registerMonitor 7 (Process.registerMonitor 7 []))) = false := by
  decide

/-- Claim C9 (amended): the registry has set semantics — registering a
monitor twice equals registering it once, so registering twice and then
deregistering once leaves the monitor NOT registered; and deregistering a
monitor (in particular one that was never registered) always leaves
isRegistered returning false. Stated for any registry list that satisfies the
flat set's sorted invariant. -/
theorem monitor_registry_set_semantics (m : Nat) (s : List Nat)
    (h : List.Sorted (· < ·) s) :
    Process.registerMonitor m (Process.registerMonitor m s) = Process.registerMonitor m s
    ∧ Process.monitorRegistered m
        (Process.deregisterMonitor m
          (Process.registerMonitor m (Process.registerMonitor m s))) = false
    ∧ Process.monitorRegistered m (Process.deregisterMonitor m s) = false := by
  have hsorted : List.Sorted (· < ·) (Process.registerMonitor m s) :=
    flatSetInsert_sorted m s h
  refine ⟨flatSetInsert_idem m s, ?_, ?_⟩
  · rw [show Process.registerMonitor m (Process.registerMonitor m s)
        = Process.registerMonitor m s from flatSetInsert_idem m s]
    have hnm := not_mem_flatSetErase m (Process.registerMonitor m s) hsorted
    simp only [Process.monitorRegistered, Process.deregisterMonitor]
    simpa using hnm
  · have hnm := not_mem_flatSetErase m s h
    simp only [Process.monitorRegistered, Process.deregisterMonitor]
    simpa using hnm

/-- Witness for the amended C9 with monitor 3 and registry [1, 5]. -/
theorem monitor_registry_set_semantics_witness :
    Process.registerMonitor 3 (Process.registerMonitor 3 [1, 5])
        = Process.registerMonitor 3 [1, 5]
    ∧ Process.monitorRegistered 3
        (Process.deregisterMonitor 3
          (Process.registerMonitor 3 (Process.registerMonitor 3 [1, 5]))) = false
    ∧ Process.monitorRegistered 3 (Process.deregisterMonitor 3 [1, 5]) = false :=
  monitor_registry_set_semantics 3 [1, 5] (by decide)
